import Mathlib

/-!
Verification of `python/sglang/srt/models/nemotron_nas.py` (DeciLM /
Nemotron-NAS variable-topology decoder).

The file below is a shallow embedding of that Python module:

* Python `int` is modelled as `ℤ` (or `ℕ` where the source value is a count),
  `float` as `ℚ` (the claims under study are about the exact arithmetic the
  source performs, stated through the source's own `int(...)` expression),
  strings as `List Char` with executable helpers mirroring the Python string
  operations used by the source (`in`, `replace`, `endswith`, `split`).
* Framework objects that the module merely constructs and calls
  (`LlamaAttention`, `LlamaMLP`, `RMSNorm`, `VocabParallelEmbedding`, the
  per-parameter weight loaders) are abstracted as records of opaque-in-spirit
  but totally defined function fields supplied by an `Externals` record;
  the embedding records the construction arguments the source passes.
* Python control flow that can raise (`assert`, dict `KeyError`, list
  `IndexError`, `ZeroDivisionError`) is modelled with `Option`/`Except`.
-/

set_option autoImplicit false

namespace NemotronNas

/-! ### Python string primitives on `List Char` -/

/-- The character list of a Python string.  All string manipulation in the
source file is modelled on `List Char` so that every operation reduces by
kernel computation. -/
abbrev PyStr := List Char

/-- Python `pat in s` (substring containment) for a non-empty pattern. -/
def strIn (pat : PyStr) : PyStr → Bool
  | [] => pat.isPrefixOf []
  | c :: rest => pat.isPrefixOf (c :: rest) || strIn pat rest

/-- Python `s.endswith(pat)`. -/
def strEndsWith (pat s : PyStr) : Bool :=
  pat.isSuffixOf s

/-- Auxiliary fuelled loop for `strReplace`; the fuel is an upper bound on
the length of the string being scanned, so it never runs out for non-empty
patterns. -/
def strReplaceAux (pat repl : PyStr) : Nat → PyStr → PyStr
  | 0, s => s
  | _ + 1, [] => []
  | fuel + 1, c :: rest =>
    if pat.isPrefixOf (c :: rest) then
      repl ++ strReplaceAux pat repl fuel (List.drop pat.length (c :: rest))
    else
      c :: strReplaceAux pat repl fuel rest

/-- Python `s.replace(pat, repl)`: replaces every non-overlapping occurrence,
left to right (the source only ever calls it with non-empty patterns). -/
def strReplace (s pat repl : PyStr) : PyStr :=
  strReplaceAux pat repl s.length s

/-- Python `s.split(".")`: split on every dot, keeping empty pieces. -/
def splitDots : PyStr → List PyStr
  | [] => [[]]
  | c :: rest =>
    if c = '.' then [] :: splitDots rest
    else
      match splitDots rest with
      | [] => [[c]]
      | piece :: pieces => (c :: piece) :: pieces

/-- Python `".".join(pieces)`. -/
def joinDots : List PyStr → PyStr
  | [] => []
  | [p] => p
  | p :: ps => p ++ '.' :: joinDots ps

/-! ### `_find_multiple` and `_ffn_mult_to_intermediate_size`
(source lines 51-61) -/

/-- Python `int(q)` for a real value modelled as `ℚ`: truncation toward
zero. -/
def pyInt (q : ℚ) : ℤ :=
  if 0 ≤ q then ⌊q⌋ else ⌈q⌉

/-- Source `_find_multiple(n, k)` (lines 57-61).  Lean's `%` on `ℤ` is
Euclidean mod, which agrees with Python `%` for the positive modulus the
source uses. -/
def find_multiple (n k : ℤ) : ℤ :=
  if n % k = 0 then n
  else n + k - n % k

/-- Source `_ffn_mult_to_intermediate_size(ffn_mult, n_embd)`
(lines 51-54). -/
def ffn_mult_to_intermediate_size (ffn_mult : ℚ) (n_embd : ℕ) : ℤ :=
  let intermediate_size := pyInt (2 * ffn_mult * (n_embd : ℚ) / 3)
  find_multiple intermediate_size 256

/-! ### Configuration data model

`config.block_configs[i]` is a per-layer descriptor object; the fields the
source reads are `attention.no_op`, `attention.n_heads_in_group`,
`ffn.no_op` and `ffn.ffn_mult`.  Optional `LlamaConfig` attributes read via
`getattr`/`hasattr` are modelled as `Option` fields. -/

structure AttentionBlockConfig where
  no_op : Bool
  n_heads_in_group : ℕ

structure FFNBlockConfig where
  no_op : Bool
  ffn_mult : ℚ

structure BlockConfig where
  attention : AttentionBlockConfig
  ffn : FFNBlockConfig

structure LlamaConfigModel where
  block_configs : List BlockConfig
  hidden_size : ℕ
  num_attention_heads : ℕ
  num_hidden_layers : ℕ
  rms_norm_eps : ℚ
  hidden_act : PyStr
  rope_theta : Option ℚ
  rope_scaling : Option (List (PyStr × ℚ))
  original_max_position_embeddings : Option ℕ
  max_position_embeddings : Option ℕ
  rope_is_neox_style : Option Bool
  attention_bias : Option Bool
  bias : Option Bool
  qkv_bias : Option Bool
  pad_token_id : Option ℕ
  vocab_size : ℕ
  tie_word_embeddings : Bool

/-- Python dict update `d[k] = v` on an association list. -/
def setKey {α : Type} (l : List (PyStr × α)) (k : PyStr) (v : α) :
    List (PyStr × α) :=
  if l.any (fun p => p.1 == k) then
    l.map (fun p => if p.1 = k then (k, v) else p)
  else l ++ [(k, v)]

/-! ### Framework interfaces

`IntermediateTensors` (from `sglang.srt.utils`) is used by the source purely
as a string-keyed dictionary of tensors; it is modelled as an association
list whose values may be `None` (the residual slot can legitimately hold
`None`).  The framework modules the source constructs — `LlamaAttention`,
`LlamaMLP`, `RMSNorm`, `VocabParallelEmbedding` — live outside `src/`; the
embedding records the construction arguments the source passes and receives
the modules' forward functions from an `Externals` record. -/

/-- String-keyed tensor dictionary (`IntermediateTensors`). -/
abbrev ITensors (T : Type) := List (PyStr × Option T)

/-- Python `d[k]` on an `ITensors`: `none` models `KeyError`. -/
def itGet {T : Type} (d : ITensors T) (k : PyStr) : Option (Option T) :=
  (d.find? (fun p => p.1 == k)).map (·.2)

/-- Arguments the source passes to the `LlamaAttention` constructor
(source lines 115-128). -/
structure LlamaAttentionArgs where
  hidden_size : ℕ
  num_heads : ℕ
  num_kv_heads : ℕ
  layer_id : ℕ
  rope_theta : ℚ
  rope_scaling : Option (List (PyStr × ℚ))
  rope_is_neox_style : Bool
  max_position_embeddings : ℕ
  bias : Bool
  pfx : PyStr

/-- Arguments the source passes to the `LlamaMLP` constructor
(source lines 145-152). -/
structure LlamaMLPArgs where
  hidden_size : ℕ
  intermediate_size : ℤ
  hidden_act : PyStr
  pfx : PyStr

/-- An `RMSNorm` module: the source calls it either with one tensor
(`norm(x)`) or with a tensor and a residual (`norm(x, residual)`, unpacked
into a pair). -/
structure RMSNormMod (T : Type) where
  hidden_size : ℕ
  eps : ℚ
  fwdOne : T → T
  fwdPair : T → Option T → T × T

/-- The externally supplied framework constructors.  `T` is the tensor
type, `P` the positions type. -/
structure Externals (T P : Type) where
  mkAttention : LlamaAttentionArgs → (P → T → Option (ITensors T) → T)
  mkMLP : LlamaMLPArgs → (T → T)
  mkRMSNormOne : ℕ → ℚ → (T → T)
  mkRMSNormPair : ℕ → ℚ → (T → Option T → T × T)
  mkEmbed : ℕ → ℕ → ℕ → (Option T → T)

/-- Modelled from the spec: `add_prefix` from `sglang.srt.utils` is not
under `src/`; it joins a module name onto a dotted path. -/
def addPfx (name p : PyStr) : PyStr :=
  if p = [] then name else p ++ '.' :: name

/-! ### `DeciLMDecoderLayer` (source lines 64-185) -/

structure DeciLMDecoderLayer (T P : Type) where
  _is_no_op_attention : Bool
  _is_no_op_ffn : Bool
  hidden_size : ℕ
  self_attn : Option (LlamaAttentionArgs × (P → T → Option (ITensors T) → T))
  input_layernorm : Option (RMSNormMod T)
  mlp : Option (LlamaMLPArgs × (T → T))
  post_attention_layernorm : Option (RMSNormMod T)

/-- Source `DeciLMDecoderLayer.__init__` (lines 66-154).  `none` models a
raised exception: `IndexError` when `layer_idx` is out of range of
`config.block_configs`, `ZeroDivisionError` when an active attention block
has `n_heads_in_group = 0`.  The source also binds `bias_o_proj`, which the
retained (sglang) `LlamaAttention` call never uses. -/
def DeciLMDecoderLayer.init {T P : Type} (ext : Externals T P)
    (config : LlamaConfigModel) (layer_idx : ℕ) (pfx : PyStr) :
    Option (DeciLMDecoderLayer T P) :=
  (config.block_configs.get? layer_idx).bind fun block_config =>
    let rope_theta := config.rope_theta.getD 10000
    let rope_scaling : Option (List (PyStr × ℚ)) :=
      match config.rope_scaling with
      | some rs =>
        if config.original_max_position_embeddings.getD 0 ≠ 0 then
          some (setKey rs "original_max_position_embeddings".data
            ((config.original_max_position_embeddings.getD 0 : ℕ) : ℚ))
        else some rs
      | none => none
    let max_position_embeddings := config.max_position_embeddings.getD 8192
    let rope_is_neox_style := config.rope_is_neox_style.getD true
    let attention_bias0 :=
      config.attention_bias.getD false || config.bias.getD false
    let attention_bias :=
      match config.qkv_bias with
      | some b => b
      | none => attention_bias0
    let attnPart? :
        Option (Option (LlamaAttentionArgs × (P → T → Option (ITensors T) → T))
          × Option (RMSNormMod T)) :=
      if block_config.attention.no_op then some (none, none)
      else if block_config.attention.n_heads_in_group = 0 then none
      else
        let num_kv_heads :=
          config.num_attention_heads / block_config.attention.n_heads_in_group
        let args : LlamaAttentionArgs :=
          { hidden_size := config.hidden_size
            num_heads := config.num_attention_heads
            num_kv_heads := num_kv_heads
            layer_id := layer_idx
            rope_theta := rope_theta
            rope_scaling := rope_scaling
            rope_is_neox_style := rope_is_neox_style
            max_position_embeddings := max_position_embeddings
            bias := attention_bias
            pfx := addPfx "self_attn".data pfx }
        some (some (args, ext.mkAttention args),
          some { hidden_size := config.hidden_size
                 eps := config.rms_norm_eps
                 fwdOne := ext.mkRMSNormOne config.hidden_size config.rms_norm_eps
                 fwdPair := ext.mkRMSNormPair config.hidden_size config.rms_norm_eps })
    attnPart?.bind fun attnPart =>
      let ffnPart :
          Option (LlamaMLPArgs × (T → T)) × Option (RMSNormMod T) :=
        if block_config.ffn.no_op then (none, none)
        else
          let intermediate_size :=
            ffn_mult_to_intermediate_size block_config.ffn.ffn_mult
              config.hidden_size
          let margs : LlamaMLPArgs :=
            { hidden_size := config.hidden_size
              intermediate_size := intermediate_size
              hidden_act := config.hidden_act
              pfx := addPfx "mlp".data pfx }
          (some (margs, ext.mkMLP margs),
            some { hidden_size := config.hidden_size
                   eps := config.rms_norm_eps
                   fwdOne := ext.mkRMSNormOne config.hidden_size config.rms_norm_eps
                   fwdPair := ext.mkRMSNormPair config.hidden_size config.rms_norm_eps })
      some { _is_no_op_attention := block_config.attention.no_op
             _is_no_op_ffn := block_config.ffn.no_op
             hidden_size := config.hidden_size
             self_attn := attnPart.1
             input_layernorm := attnPart.2
             mlp := ffnPart.1
             post_attention_layernorm := ffnPart.2 }

/-- The "Self Attention" half of `DeciLMDecoderLayer.forward`
(source lines 165-178).  `Except.error` models a raised
`AttributeError` (calling a sub-module the constructor never created);
that branch is unreachable for layers built by `init`. -/
def DeciLMDecoderLayer.attnBlock {T P : Type} (l : DeciLMDecoderLayer T P)
    (positions : P) (hidden_states : T)
    (intermediate_tensors : Option (ITensors T)) (residual : Option T) :
    Except PyStr (T × Option T) :=
  if l._is_no_op_attention then .ok (hidden_states, residual)
  else
    match l.self_attn, l.input_layernorm with
    | some (_, attnFwd), some ln =>
      match residual with
      | none =>
        let residual1 := hidden_states
        let h1 := ln.fwdOne hidden_states
        .ok (attnFwd positions h1 intermediate_tensors, some residual1)
      | some r =>
        let hr := ln.fwdPair hidden_states (some r)
        .ok (attnFwd positions hr.1 intermediate_tensors, some hr.2)
    | _, _ => .error "AttributeError".data

/-- The "Fully Connected" half of `DeciLMDecoderLayer.forward`
(source lines 180-185). -/
def DeciLMDecoderLayer.ffnBlock {T P : Type} (l : DeciLMDecoderLayer T P)
    (hidden_states : T) (residual : Option T) :
    Except PyStr (T × Option T) :=
  if !l._is_no_op_ffn then
    match l.mlp, l.post_attention_layernorm with
    | some (_, mlpFwd), some pon =>
      let hr := pon.fwdPair hidden_states residual
      .ok (mlpFwd hr.1, some hr.2)
    | _, _ => .error "AttributeError".data
  else .ok (hidden_states, residual)

/-- Source `DeciLMDecoderLayer.forward` (lines 156-185): the attention
block followed by the feed-forward block. -/
def DeciLMDecoderLayer.forward {T P : Type} (l : DeciLMDecoderLayer T P)
    (positions : P) (hidden_states : T)
    (intermediate_tensors : Option (ITensors T)) (residual : Option T) :
    Except PyStr (T × Option T) :=
  (l.attnBlock positions hidden_states intermediate_tensors residual).bind
    fun hr => l.ffnBlock hr.1 hr.2

/-! ### `DeciModel` (source lines 189-368) -/

/-- Pipeline-parallel rank facts, consumed externally via
`get_pp_group()`. -/
structure PPGroup where
  is_first_rank : Bool
  is_last_rank : Bool

/-- Modelled from the spec: `make_layers` from `sglang.srt.utils` is not
under `src/`; per the spec the stacked model "instantiates N decoder
layers", so it calls the layer factory once per index `0 ≤ i < n`, passing
the dotted prefix `"<pfx>.<i>"`. -/
def make_layers {α : Type} (n : ℕ) (f : ℕ → PyStr → α) (pfx : PyStr) :
    List α :=
  (List.range n).map fun i => f i (pfx ++ '.' :: (toString i).data)

/-- Sequence a list of optional values, failing if any entry failed. -/
def seqOpt {α : Type} : List (Option α) → Option (List α)
  | [] => some []
  | none :: _ => none
  | some a :: rest => (seqOpt rest).map (a :: ·)

structure DeciModel (T P : Type) where
  config : LlamaConfigModel
  pp : PPGroup
  vocab_size : ℕ
  org_vocab_size : ℕ
  padding_idx : Option ℕ
  /-- A `none` value models a `PPMissingLayer` placeholder. -/
  embed_tokens : Option (Option T → T)
  layers : List (DeciLMDecoderLayer T P)
  /-- A `none` value models a `PPMissingLayer` placeholder. -/
  norm : Option (RMSNormMod T)

/-- Source `DeciModel.__init__` (lines 198-259).  `lora_config` is `None`
in this port, so `lora_vocab = 0`.  The inner `get_layer` also parses an
index back out of its dotted prefix, but then passes its `idx` argument;
the dead parse is omitted.  `none` models an exception escaping from a
layer constructor. -/
def DeciModel.init {T P : Type} (ext : Externals T P)
    (config : LlamaConfigModel) (pp : PPGroup) (pfx : PyStr) :
    Option (DeciModel T P) :=
  let vocab_size := config.vocab_size + 0
  let embed_tokens : Option (Option T → T) :=
    if pp.is_first_rank || (config.tie_word_embeddings && pp.is_last_rank) then
      some (ext.mkEmbed vocab_size config.hidden_size config.vocab_size)
    else none
  let get_layer : ℕ → PyStr → Option (DeciLMDecoderLayer T P) := fun idx p =>
    DeciLMDecoderLayer.init ext config idx p
  (seqOpt (make_layers config.num_hidden_layers get_layer
      (addPfx "layers".data pfx))).map fun layers =>
    { config := config
      pp := pp
      vocab_size := vocab_size
      org_vocab_size := config.vocab_size
      padding_idx := config.pad_token_id
      embed_tokens := embed_tokens
      layers := layers
      norm :=
        if pp.is_last_rank then
          some { hidden_size := config.hidden_size
                 eps := config.rms_norm_eps
                 fwdOne := ext.mkRMSNormOne config.hidden_size config.rms_norm_eps
                 fwdPair := ext.mkRMSNormPair config.hidden_size config.rms_norm_eps }
        else none }

/-- The layer loop of `DeciModel.forward` (source lines 283-294): both
branches of the `if` apply the layer identically; only the (otherwise
unused) `kv_cache_index` counter differs. -/
def DeciModel.runLayersAux {T P : Type} (positions : P)
    (it : Option (ITensors T)) :
    List (DeciLMDecoderLayer T P) → ℕ → T × Option T →
      Except PyStr (T × Option T)
  | [], _, hr => .ok hr
  | layer :: rest, kv_cache_index, hr =>
    if !layer._is_no_op_attention then
      (layer.forward positions hr.1 it hr.2).bind fun hr1 =>
        DeciModel.runLayersAux positions it rest (kv_cache_index + 1) hr1
    else
      (layer.forward positions hr.1 it hr.2).bind fun hr1 =>
        DeciModel.runLayersAux positions it rest kv_cache_index hr1

/-- The tail of `DeciModel.forward` (source lines 295-302): on a non-last
rank wrap the pair into an `IntermediateTensors` with exactly the keys
`"hidden_states"` and `"residual"`; on the last rank apply the final
`RMSNorm` to hidden states and residual and keep the first component. -/
def DeciModel.finishStage {T P : Type} (m : DeciModel T P)
    (hr : T × Option T) : Except PyStr (T ⊕ ITensors T) :=
  if !m.pp.is_last_rank then
    .ok (Sum.inr [("hidden_states".data, some hr.1),
      ("residual".data, hr.2)])
  else
    match m.norm with
    | some nm => .ok (Sum.inl (nm.fwdPair hr.1 hr.2).1)
    | none => .error "PPMissingLayer".data

/-- Source `DeciModel.forward` (lines 265-302).  `Except.error` models a
raised exception: the `assert intermediate_tensors is not None` on a
non-first rank, a dict `KeyError`, or a call landing on a
`PPMissingLayer`.  A `None` stored under `"hidden_states"` is modelled as
an immediate error (Python would fail on the first tensor operation that
consumes it). -/
def DeciModel.forward {T P : Type} (m : DeciModel T P) (input_ids : Option T)
    (positions : P) (intermediate_tensors : Option (ITensors T))
    (inputs_embeds : Option T) : Except PyStr (T ⊕ ITensors T) :=
  let start : Except PyStr (T × Option T) :=
    if m.pp.is_first_rank then
      match inputs_embeds with
      | some e => .ok (e, none)
      | none =>
        match m.embed_tokens with
        | some emb => .ok (emb input_ids, none)
        | none => .error "PPMissingLayer".data
    else
      match intermediate_tensors with
      | none => .error "AssertionError".data
      | some itd =>
        match itGet itd "hidden_states".data with
        | none => .error "KeyError".data
        | some hval =>
          match itGet itd "residual".data with
          | none => .error "KeyError".data
          | some residual =>
            match hval with
            | some h => .ok (h, residual)
            | none => .error "NoneHiddenStates".data
  start.bind fun hr0 =>
    (DeciModel.runLayersAux positions intermediate_tensors m.layers 0
        hr0).bind
      m.finishStage

/-! ### `DeciModel.load_weights` (source lines 304-368)

The weight loader streams `(name, tensor)` pairs and dispatches each
tensor to a per-parameter `weight_loader`.  The embedding records every
such call as a `Dispatch` event; `params_dict` is abstracted to the list
of parameter names, the quantization config to its `get_cache_scale`
function, and `maybe_remap_kv_scale_name` / `is_pp_missing_parameter`
(both outside `src/`) to opaque function fields. -/

/-- Shard identifiers passed to fused-parameter weight loaders: `"q"`,
`"k"`, `"v"`, or an integer. -/
inductive ShardId
  | q
  | k
  | v
  | idx (n : ℕ)
deriving DecidableEq

/-- One call to a parameter's `weight_loader`: target parameter name,
tensor passed, and shard id (when the stacked mapping applies). -/
structure Dispatch (W : Type) where
  param : PyStr
  weight : W
  shard : Option ShardId
deriving DecidableEq

/-- The environment `load_weights` runs in. -/
structure LoadEnv (W : Type) where
  /-- Names in `dict(self.named_parameters())`. -/
  params : List PyStr
  /-- Holds `self.quant_config.get_cache_scale` when `quant_config` is
  not `None`. -/
  quant : Option (PyStr → Option PyStr)
  /-- External `maybe_remap_kv_scale_name` (from
  `sglang.srt.model_loader`, outside `src/`), closed over
  `params_dict`. -/
  remapKvScale : PyStr → Option PyStr
  /-- External `is_pp_missing_parameter` (from `sglang.srt.utils`,
  outside `src/`). -/
  isPPMissing : PyStr → Bool
  /-- Python `tensor.dim()`. -/
  tensorDim : W → ℕ
  /-- Python `tensor[0]`. -/
  tensorFirst : W → W

/-- The `stacked_params_mapping` table (source lines 306-313), in order:
`(param_name, shard_name, shard_id)`. -/
def stacked_params_mapping : List (PyStr × PyStr × ShardId) :=
  [(".qkv_proj".data, ".q_proj".data, ShardId.q),
   (".qkv_proj".data, ".k_proj".data, ShardId.k),
   (".qkv_proj".data, ".v_proj".data, ShardId.v),
   (".gate_up_proj".data, ".gate_proj".data, ShardId.idx 0),
   (".gate_up_proj".data, ".up_proj".data, ShardId.idx 1)]

/-- Python `set.add` on a set modelled as a duplicate-free list. -/
def pyAdd (s : List PyStr) (n : PyStr) : List PyStr :=
  if n ∈ s then s else s ++ [n]

/-- Accumulated effects of `load_weights`: the `weight_loader` calls made
(in order) and the `loaded_params` set. -/
structure LoadAcc (W : Type) where
  events : List (Dispatch W)
  loaded : List PyStr
deriving DecidableEq

/-- The `for ... else` loop over `stacked_params_mapping` (source lines
340-354).  Returns the possibly-mutated name, together with
`some dispatch` when the loop `break`s after loading and `none` when it
falls through to the `else` clause.  Note that after a rule matches, the
substituted name is kept even when the `.bias` / pipeline-missing checks
`continue` to the next rule.  `Except.error` models a dict `KeyError`. -/
def tryStacked {W : Type} (env : LoadEnv W) (w : W) :
    List (PyStr × PyStr × ShardId) → PyStr →
      Except PyStr (PyStr × Option (Dispatch W))
  | [], name => .ok (name, none)
  | (param_name, weight_name, shard_id) :: rules, name =>
    if strIn weight_name name = false then
      tryStacked env w rules name
    else
      let name1 := strReplace name weight_name param_name
      if strEndsWith ".bias".data name1 = true ∧ name1 ∉ env.params then
        tryStacked env w rules name1
      else if env.isPPMissing name1 = true then
        tryStacked env w rules name1
      else if name1 ∈ env.params then
        .ok (name1, some ⟨name1, w, some shard_id⟩)
      else .error "KeyError".data

/-- Value of `self.quant_config.get_cache_scale(name)` guarded by
`self.quant_config is not None` (source lines 324-325). -/
def quantScale {W : Type} (env : LoadEnv W) (name : PyStr) : Option PyStr :=
  match env.quant with
  | some gcs => gcs name
  | none => none

/-- The `else` clause of the stacked-mapping loop together with the final
dispatch (source lines 355-366), applied when no rule `break`s. -/
def fallbackDispatch {W : Type} (env : LoadEnv W) (acc : LoadAcc W)
    (name : PyStr) (w : W) : Except PyStr (LoadAcc W) :=
  if strEndsWith ".bias".data name = true ∧ name ∉ env.params then .ok acc
  else if env.isPPMissing name = true then .ok acc
  else if name ∈ env.params then
    .ok ⟨acc.events ++ [⟨name, w, none⟩], pyAdd acc.loaded name⟩
  else .error "KeyError".data

/-- The stacked-mapping loop plus the trailing `loaded_params.add(name)`
(source lines 340-367). -/
def stackedDispatch {W : Type} (env : LoadEnv W) (acc : LoadAcc W)
    (name : PyStr) (w : W) : Except PyStr (LoadAcc W) :=
  (tryStacked env w stacked_params_mapping name).bind fun res =>
    match res.2 with
    | some ev => .ok ⟨acc.events ++ [ev], pyAdd acc.loaded res.1⟩
    | none => fallbackDispatch env acc res.1 w

/-- One iteration of the `load_weights` loop body (source lines 316-367)
on a single `(name, loaded_weight)` pair.  The walrus guard
`quant_config is not None and (scale_name := get_cache_scale(name))`
fails when the quantization config is `None`, when `get_cache_scale`
returns `None`, and (by Python truthiness) when it returns the empty
string; all three are captured by `(quantScale env name).getD [] = []`. -/
def processWeight {W : Type} (env : LoadEnv W) (acc : LoadAcc W)
    (name : PyStr) (loaded_weight : W) : Except PyStr (LoadAcc W) :=
  if strIn "rotary_emb.inv_freq".data name = true then .ok acc
  else if strIn "rotary_emb.cos_cached".data name = true ∨
      strIn "rotary_emb.sin_cached".data name = true then .ok acc
  else
    let scale_name := (quantScale env name).getD []
    if scale_name ≠ [] then
      -- loading a kv-cache quantization scale
      if scale_name ∈ env.params then
        let w1 :=
          if env.tensorDim loaded_weight = 0 then loaded_weight
          else env.tensorFirst loaded_weight
        .ok ⟨acc.events ++ [⟨scale_name, w1, none⟩],
          pyAdd acc.loaded scale_name⟩
      else .error "KeyError".data
    else
      if strIn "scale".data name = true then
        -- FP8 kv-scale renaming; skip the entry when the remap yields None
        if env.remapKvScale name = none then .ok acc
        else
          stackedDispatch env acc ((env.remapKvScale name).getD name)
            loaded_weight
      else stackedDispatch env acc name loaded_weight

/-- The `load_weights` loop over all checkpoint entries. -/
def load_weightsAux {W : Type} (env : LoadEnv W) :
    List (PyStr × W) → LoadAcc W → Except PyStr (LoadAcc W)
  | [], acc => .ok acc
  | nw :: rest, acc =>
    (processWeight env acc nw.1 nw.2).bind fun acc1 =>
      load_weightsAux env rest acc1

/-- Source `DeciModel.load_weights` (lines 304-368): process every entry,
returning the dispatch trace and the `loaded_params` set. -/
def DeciModel.load_weights {W : Type} (env : LoadEnv W)
    (weights : List (PyStr × W)) : Except PyStr (LoadAcc W) :=
  load_weightsAux env weights ⟨[], []⟩

/-! ### Mistral-style key aliasing (source lines 392-410, 555-562) -/

/-- The `mistral_mapping` table (source lines 394-410). -/
def mistral_mapping : List (PyStr × PyStr) :=
  [("layers".data, "model.layers".data),
   ("attention".data, "self_attn".data),
   ("wq".data, "q_proj".data),
   ("wk".data, "k_proj".data),
   ("wv".data, "v_proj".data),
   ("wo".data, "o_proj".data),
   ("attention_norm".data, "input_layernorm".data),
   ("feed_forward".data, "mlp".data),
   ("w1".data, "gate_proj".data),
   ("w2".data, "down_proj".data),
   ("w3".data, "up_proj".data),
   ("ffn_norm".data, "post_attention_layernorm".data),
   ("tok_embeddings".data, "model.embed_tokens".data),
   ("output".data, "lm_head".data),
   ("norm".data, "model.norm".data)]

/-- Substitute one dot-separated component through `mistral_mapping`. -/
def mistralSubst (tok : PyStr) : PyStr :=
  match mistral_mapping.find? (fun p => p.1 == tok) with
  | some p => p.2
  | none => tok

/-- Modelled from the spec: the code applying `mistral_mapping` (the
`AutoWeightsLoader` path invoked by `DeciLMForCausalLM.load_weights`,
source lines 555-562) lives outside `src/`; per the spec, the
checkpoint-name remapping rewrites each dot-separated component of a
Mistral-style checkpoint name through the `mistral_mapping` table. -/
def maybe_remap_mistral (name : PyStr) : PyStr :=
  joinDots ((splitDots name).map mistralSubst)

/-- Modelled from the spec: the causal-LM weight loader remaps
Mistral-style names and then dispatches each entry exactly as
`DeciModel.load_weights` does. -/
def DeciLMForCausalLM.load_weights {W : Type} (env : LoadEnv W)
    (weights : List (PyStr × W)) : Except PyStr (LoadAcc W) :=
  DeciModel.load_weights env
    (weights.map fun nw => (maybe_remap_mistral nw.1, nw.2))

/-! ### Concrete fixtures used by witness theorems -/

/-- A trivial tensor-framework instantiation used by concrete witnesses:
tensors are integers, positions are units. -/
def testExternals : Externals ℤ Unit where
  mkAttention := fun _ _ h _ => h + 1
  mkMLP := fun _ h => 2 * h
  mkRMSNormOne := fun _ _ h => h
  mkRMSNormPair := fun _ _ h r => (h + r.getD 0, h)
  mkEmbed := fun _ _ _ i => i.getD 0

/-- A block whose attention and feed-forward are both active. -/
def testBlockActive : BlockConfig where
  attention := { no_op := false, n_heads_in_group := 4 }
  ffn := { no_op := false, ffn_mult := 4 }

/-- A block whose attention and feed-forward are both no-ops. -/
def testBlockNoOp : BlockConfig where
  attention := { no_op := true, n_heads_in_group := 0 }
  ffn := { no_op := true, ffn_mult := 0 }

/-- A two-layer test configuration. -/
def testConfig : LlamaConfigModel where
  block_configs := [testBlockActive, testBlockNoOp]
  hidden_size := 96
  num_attention_heads := 8
  num_hidden_layers := 2
  rms_norm_eps := 1 / 100000
  hidden_act := "silu".data
  rope_theta := none
  rope_scaling := none
  original_max_position_embeddings := none
  max_position_embeddings := none
  rope_is_neox_style := none
  attention_bias := none
  bias := none
  qkv_bias := none
  pad_token_id := none
  vocab_size := 32
  tie_word_embeddings := false

/-- Fallback layer for `Option.getD` in witness fixtures. -/
def defaultLayer : DeciLMDecoderLayer ℤ Unit where
  _is_no_op_attention := true
  _is_no_op_ffn := true
  hidden_size := 0
  self_attn := none
  input_layernorm := none
  mlp := none
  post_attention_layernorm := none

/-- Layer 0 of `testConfig` (active attention and feed-forward). -/
def testLayer0 : DeciLMDecoderLayer ℤ Unit :=
  (DeciLMDecoderLayer.init testExternals testConfig 0 []).getD defaultLayer

/-- Layer 1 of `testConfig` (both blocks no-op). -/
def testLayer1 : DeciLMDecoderLayer ℤ Unit :=
  (DeciLMDecoderLayer.init testExternals testConfig 1 []).getD defaultLayer

/-- A rank that is both first and last (single-stage pipeline). -/
def testPPBoth : PPGroup where
  is_first_rank := true
  is_last_rank := true

/-- A middle rank (neither first nor last). -/
def testPPMid : PPGroup where
  is_first_rank := false
  is_last_rank := false

/-- Fallback norm module for `Option.getD` in witness fixtures. -/
def defaultNorm : RMSNormMod ℤ where
  hidden_size := 0
  eps := 0
  fwdOne := id
  fwdPair := fun h _ => (h, h)

/-- Fallback model for `Option.getD` in witness fixtures. -/
def defaultModel : DeciModel ℤ Unit where
  config := testConfig
  pp := testPPBoth
  vocab_size := 0
  org_vocab_size := 0
  padding_idx := none
  embed_tokens := none
  layers := []
  norm := none

/-- The test model on a single-stage pipeline. -/
def testModel : DeciModel ℤ Unit :=
  (DeciModel.init testExternals testConfig testPPBoth []).getD defaultModel

/-- The test model on a middle pipeline rank. -/
def testModelMid : DeciModel ℤ Unit :=
  (DeciModel.init testExternals testConfig testPPMid []).getD defaultModel

/-- The final norm of `testModel`. -/
def testNorm : RMSNormMod ℤ :=
  testModel.norm.getD defaultNorm

/-- A loading environment with no quantization config and an empty
parameter dict. -/
def cexEnv : LoadEnv ℤ where
  params := []
  quant := none
  remapKvScale := fun _ => none
  isPPMissing := fun _ => false
  tensorDim := fun _ => 2
  tensorFirst := fun w => w

/-- A loading environment whose quantization config maps one kv-scale
checkpoint name onto a cache-scale parameter. -/
def kvEnv : LoadEnv ℤ where
  params := ["model.layers.0.self_attn.attn.k_scale".data,
    "model.layers.0.self_attn.qkv_proj.weight".data]
  quant := some fun n =>
    if n = "model.layers.0.self_attn.kv_scale".data then
      some "model.layers.0.self_attn.attn.k_scale".data
    else none
  remapKvScale := fun _ => none
  isPPMissing := fun _ => false
  tensorDim := fun _ => 1
  tensorFirst := fun _ => 7

/-- Function `find_multiple` fixes every multiple of `k`. -/
theorem find_multiple_eq_self_of_dvd (n k : ℤ) (h : k ∣ n) :
    find_multiple n k = n := by
  unfold find_multiple
  rw [if_pos (Int.emod_eq_zero_of_dvd h)]

/-- Applying `pyInt` to an integer cast gives back the integer. -/
theorem pyInt_intCast (z : ℤ) : pyInt ((z : ℚ)) = z := by
  unfold pyInt
  by_cases h : (0 : ℚ) ≤ (z : ℚ)
  · rw [if_pos h, Int.floor_intCast]
  · rw [if_neg h, Int.ceil_intCast]

/-- Key arithmetic fact: for a positive modulus `k`, `find_multiple n k` is
the least multiple of `k` that is `≥ n`. -/
theorem find_multiple_least (n k : ℤ) (hk : 0 < k) :
    k ∣ find_multiple n k ∧ n ≤ find_multiple n k ∧
      ∀ z : ℤ, k ∣ z → n ≤ z → find_multiple n k ≤ z := by
  have hk0 : k ≠ 0 := ne_of_gt hk
  have hsplit : k * (n / k) + n % k = n := Int.ediv_add_emod n k
  have hr0 : 0 ≤ n % k := Int.emod_nonneg n hk0
  have hrk : n % k < k := Int.emod_lt_of_pos n hk
  unfold find_multiple
  by_cases h : n % k = 0
  · rw [if_pos h]
    exact ⟨Int.dvd_of_emod_eq_zero h, le_refl n, fun z _ hz => hz⟩
  · rw [if_neg h]
    have hrpos : 0 < n % k := lt_of_le_of_ne hr0 (Ne.symm h)
    have hmul1 : k * (n / k + 1) = k * (n / k) + k := by ring
    refine ⟨⟨n / k + 1, by omega⟩, by omega, ?_⟩
    intro z hdvd hz
    obtain ⟨t, ht⟩ := hdvd
    have h1 : k * (n / k) < k * t := by omega
    have h2 : n / k < t := lt_of_mul_lt_mul_left h1 (le_of_lt hk)
    have h3 : k * (n / k + 1) ≤ k * t :=
      mul_le_mul_of_nonneg_left (by omega) (le_of_lt hk)
    omega

/-- Claim C1: for every `ffn_mult : ℚ` and hidden size `n_embd`,
`ffn_mult_to_intermediate_size ffn_mult n_embd` is the least multiple of 256
greater than or equal to `int(2 * ffn_mult * n_embd / 3)`; in particular it
is divisible by 256. -/
theorem claim1_intermediate_size_least_multiple (ffn_mult : ℚ) (n_embd : ℕ) :
    (256 : ℤ) ∣ ffn_mult_to_intermediate_size ffn_mult n_embd ∧
      pyInt (2 * ffn_mult * (n_embd : ℚ) / 3) ≤
        ffn_mult_to_intermediate_size ffn_mult n_embd ∧
      ∀ z : ℤ, (256 : ℤ) ∣ z → pyInt (2 * ffn_mult * (n_embd : ℚ) / 3) ≤ z →
        ffn_mult_to_intermediate_size ffn_mult n_embd ≤ z := by
  have h := find_multiple_least (pyInt (2 * ffn_mult * (n_embd : ℚ) / 3)) 256
    (by norm_num)
  exact h

/-- Witness for C1's inner implications at a concrete input:
`ffn_mult = 4`, `n_embd = 96` gives `int(2*4*96/3) = 256`, and the result
256 is a multiple of 256, is `≥ 256`, and is `≤` the multiple 512. -/
theorem claim1_witness :
    (256 : ℤ) ∣ ffn_mult_to_intermediate_size 4 96 ∧
      pyInt (2 * 4 * ((96 : ℕ) : ℚ) / 3) ≤ ffn_mult_to_intermediate_size 4 96 ∧
      ffn_mult_to_intermediate_size 4 96 ≤ 512 := by
  refine ⟨(claim1_intermediate_size_least_multiple 4 96).1,
    (claim1_intermediate_size_least_multiple 4 96).2.1,
    (claim1_intermediate_size_least_multiple 4 96).2.2 512 ⟨2, by norm_num⟩ ?_⟩
  have harg : (2 * 4 * ((96 : ℕ) : ℚ) / 3) = ((256 : ℤ) : ℚ) := by norm_num
  rw [harg, pyInt_intCast]
  norm_num

/-- Claim C8: for `0 ≤ n` and `0 < k`, `find_multiple` is the identity on
multiples of `k`, idempotent, and conservative:
`n ≤ find_multiple n k < n + k`. -/
theorem claim8_find_multiple_idempotent_conservative (n k : ℤ)
    (hn : 0 ≤ n) (hk : 0 < k) :
    (k ∣ n → find_multiple n k = n) ∧
      find_multiple (find_multiple n k) k = find_multiple n k ∧
      n ≤ find_multiple n k ∧ find_multiple n k < n + k := by
  have hk0 : k ≠ 0 := ne_of_gt hk
  have hr0 : 0 ≤ n % k := Int.emod_nonneg n hk0
  have hrk : n % k < k := Int.emod_lt_of_pos n hk
  refine ⟨fun hdvd => find_multiple_eq_self_of_dvd n k hdvd, ?_, ?_, ?_⟩
  · exact find_multiple_eq_self_of_dvd _ k (find_multiple_least n k hk).1
  · exact (find_multiple_least n k hk).2.1
  · unfold find_multiple
    by_cases h : n % k = 0
    · rw [if_pos h]
      omega
    · rw [if_neg h]
      have : 0 < n % k := lt_of_le_of_ne hr0 (Ne.symm h)
      omega

/-- Witness for C8 at `n = 7`, `k = 5`: `find_multiple 7 5 = 10`. -/
theorem claim8_witness :
    ((5 : ℤ) ∣ 10 → find_multiple 10 5 = 10) ∧
      find_multiple (find_multiple 7 5) 5 = find_multiple 7 5 ∧
      (7 : ℤ) ≤ find_multiple 7 5 ∧ find_multiple 7 5 < 7 + 5 := by
  refine ⟨(claim8_find_multiple_idempotent_conservative 10 5 (by norm_num)
    (by norm_num)).1, ?_, ?_, ?_⟩
  · exact (claim8_find_multiple_idempotent_conservative 7 5 (by norm_num)
      (by norm_num)).2.1
  · exact (claim8_find_multiple_idempotent_conservative 7 5 (by norm_num)
      (by norm_num)).2.2.1
  · exact (claim8_find_multiple_idempotent_conservative 7 5 (by norm_num)
      (by norm_num)).2.2.2

/-- Claim C2: a constructed `DeciLMDecoderLayer` contains a self-attention
module and its input normalization iff `block_config.attention.no_op` is
false, and a feed-forward module and its post-attention normalization iff
`block_config.ffn.no_op` is false; when attention is active its
`num_kv_heads` is `num_attention_heads // n_heads_in_group`, and when
feed-forward is active its intermediate size is
`_ffn_mult_to_intermediate_size(ffn_mult, hidden_size)`. -/
theorem claim2_layer_construction {T P : Type} (ext : Externals T P)
    (config : LlamaConfigModel) (layer_idx : ℕ) (pfx : PyStr)
    (bc : BlockConfig) (l : DeciLMDecoderLayer T P)
    (hbc : config.block_configs.get? layer_idx = some bc)
    (hl : DeciLMDecoderLayer.init ext config layer_idx pfx = some l) :
    (l._is_no_op_attention = bc.attention.no_op ∧
      l._is_no_op_ffn = bc.ffn.no_op) ∧
    ((l.self_attn.isSome ∧ l.input_layernorm.isSome) ↔
      bc.attention.no_op = false) ∧
    ((l.mlp.isSome ∧ l.post_attention_layernorm.isSome) ↔
      bc.ffn.no_op = false) ∧
    (∀ args f, l.self_attn = some (args, f) →
      args.num_kv_heads =
        config.num_attention_heads / bc.attention.n_heads_in_group) ∧
    (∀ margs f, l.mlp = some (margs, f) →
      margs.intermediate_size =
        ffn_mult_to_intermediate_size bc.ffn.ffn_mult config.hidden_size) := by
  rw [DeciLMDecoderLayer.init, hbc, Option.some_bind] at hl
  cases ha : bc.attention.no_op <;> cases hf : bc.ffn.no_op <;>
    simp only [ha, hf, if_true, if_false, Bool.false_eq_true, Bool.true_eq_false,
      ite_true, ite_false, Option.some_bind] at hl
  · by_cases hg : bc.attention.n_heads_in_group = 0
    · simp only [hg, ite_true, Option.none_bind] at hl
      exact absurd hl (by simp)
    · simp only [hg, ite_false, Option.some_bind, if_neg hg] at hl
      obtain rfl := (Option.some.injEq _ _).mp hl
      refine ⟨⟨rfl, rfl⟩, by simp [ha], by simp [hf], ?_, ?_⟩
      · intro args f h
        simp only [Option.some.injEq, Prod.mk.injEq] at h
        rw [← h.1]
      · intro margs f h
        simp only [Option.some.injEq, Prod.mk.injEq] at h
        rw [← h.1]
  · by_cases hg : bc.attention.n_heads_in_group = 0
    · simp only [hg, ite_true, Option.none_bind] at hl
      exact absurd hl (by simp)
    · simp only [hg, ite_false, Option.some_bind, if_neg hg] at hl
      obtain rfl := (Option.some.injEq _ _).mp hl
      refine ⟨⟨rfl, rfl⟩, by simp [ha], by simp [hf], ?_, ?_⟩
      · intro args f h
        simp only [Option.some.injEq, Prod.mk.injEq] at h
        rw [← h.1]
      · intro margs f h
        simp at h
  · obtain rfl := (Option.some.injEq _ _).mp hl
    refine ⟨⟨rfl, rfl⟩, by simp [ha], by simp [hf], ?_, ?_⟩
    · intro args f h
      simp at h
    · intro margs f h
      simp only [Option.some.injEq, Prod.mk.injEq] at h
      rw [← h.1]
  · obtain rfl := (Option.some.injEq _ _).mp hl
    refine ⟨⟨rfl, rfl⟩, by simp [ha], by simp [hf], ?_, ?_⟩
    · intro args f h
      simp at h
    · intro margs f h
      simp at h

/-- Witness for C2: layer 0 of the test configuration, whose blocks are
both active. -/
theorem claim2_witness :
    (testLayer0._is_no_op_attention = testBlockActive.attention.no_op ∧
      testLayer0._is_no_op_ffn = testBlockActive.ffn.no_op) ∧
    ((testLayer0.self_attn.isSome ∧ testLayer0.input_layernorm.isSome) ↔
      testBlockActive.attention.no_op = false) ∧
    ((testLayer0.mlp.isSome ∧ testLayer0.post_attention_layernorm.isSome) ↔
      testBlockActive.ffn.no_op = false) ∧
    (∀ args f, testLayer0.self_attn = some (args, f) →
      args.num_kv_heads =
        testConfig.num_attention_heads /
          testBlockActive.attention.n_heads_in_group) ∧
    (∀ margs f, testLayer0.mlp = some (margs, f) →
      margs.intermediate_size =
        ffn_mult_to_intermediate_size testBlockActive.ffn.ffn_mult
          testConfig.hidden_size) :=
  claim2_layer_construction testExternals testConfig 0 [] testBlockActive
    testLayer0 rfl rfl

/-- Claim C5: when the attention block is a no-op, the attention half of
`DeciLMDecoderLayer.forward` passes the `(hidden_states, residual)` pair to
the feed-forward half unchanged; when the feed-forward block is also a
no-op, the whole layer is the identity on that pair. -/
theorem claim5_no_op_identity {T P : Type} (l : DeciLMDecoderLayer T P)
    (positions : P) (hidden_states : T) (it : Option (ITensors T))
    (residual : Option T) (hattn : l._is_no_op_attention = true) :
    l.attnBlock positions hidden_states it residual =
      .ok (hidden_states, residual) ∧
    (l._is_no_op_ffn = true →
      l.forward positions hidden_states it residual =
        .ok (hidden_states, residual)) := by
  have h1 : l.attnBlock positions hidden_states it residual =
      .ok (hidden_states, residual) := by
    rw [DeciLMDecoderLayer.attnBlock, hattn]
    simp
  refine ⟨h1, fun hffn => ?_⟩
  rw [DeciLMDecoderLayer.forward, h1]
  show (l.ffnBlock hidden_states residual) = _
  rw [DeciLMDecoderLayer.ffnBlock, hffn]
  simp

/-- Witness for C5: layer 1 of the test configuration (both blocks no-op)
is the identity on the pair `(5, none)`. -/
theorem claim5_witness :
    testLayer1.attnBlock () 5 none none = .ok (5, none) ∧
    testLayer1.forward () 5 none none = .ok (5, none) :=
  ⟨(claim5_no_op_identity testLayer1 () 5 none none rfl).1,
    (claim5_no_op_identity testLayer1 () 5 none none rfl).2 rfl⟩

/-- Folding `Except.bind` over a list commutes with a leading bind. -/
theorem foldl_bind_except {E A B : Type} (g : B → A → Except E A) :
    ∀ (ls : List B) (e : Except E A),
      ls.foldl (fun acc l => acc.bind (g l)) e =
        e.bind (fun a => ls.foldl (fun acc l => acc.bind (g l)) (.ok a)) := by
  intro ls
  induction ls with
  | nil =>
    intro e
    cases e <;> rfl
  | cons l rest ih =>
    intro e
    cases e with
    | error err =>
      show List.foldl (fun acc l => acc.bind (g l)) (Except.error err) rest =
        Except.error err
      rw [ih]
      rfl
    | ok a =>
      rfl

/-- The layer loop applies the layers as a left fold, regardless of the
`kv_cache_index` counter. -/
theorem runLayersAux_eq_foldl {T P : Type} (positions : P)
    (it : Option (ITensors T)) :
    ∀ (ls : List (DeciLMDecoderLayer T P)) (k : ℕ) (hr : T × Option T),
      DeciModel.runLayersAux positions it ls k hr =
        ls.foldl
          (fun acc layer =>
            acc.bind fun hr1 => layer.forward positions hr1.1 it hr1.2)
          (.ok hr) := by
  intro ls
  induction ls with
  | nil => intro k hr; rfl
  | cons l rest ih =>
    intro k hr
    have hstep : ∀ k' : ℕ,
        (l.forward positions hr.1 it hr.2).bind
          (fun hr1 => DeciModel.runLayersAux positions it rest k' hr1) =
        (l :: rest).foldl
          (fun acc layer =>
            acc.bind fun hr1 => layer.forward positions hr1.1 it hr1.2)
          (.ok hr) := by
      intro k'
      rw [List.foldl_cons,
        foldl_bind_except
          (fun layer hr1 => DeciLMDecoderLayer.forward layer positions hr1.1 it hr1.2)
          rest]
      show Except.bind (l.forward positions hr.1 it hr.2) _ =
        Except.bind (l.forward positions hr.1 it hr.2) _
      exact congrArg _ (funext fun a => ih k' a)
    rw [DeciModel.runLayersAux]
    cases hflag : l._is_no_op_attention
    · rw [if_pos (show (!false) = true from rfl)]
      exact hstep (k + 1)
    · rw [if_neg (show ¬(!true) = true from by decide)]
      exact hstep k

/-- A sequenced option list keeps its length and entries. -/
theorem seqOpt_eq_some {α : Type} :
    ∀ (xs : List (Option α)) (ys : List α), seqOpt xs = some ys →
      ys.length = xs.length ∧ ∀ i, xs.get? i = (ys.get? i).map some := by
  intro xs
  induction xs with
  | nil =>
    intro ys h
    simp only [seqOpt, Option.some.injEq] at h
    subst h
    exact ⟨rfl, fun i => by simp⟩
  | cons x rest ih =>
    intro ys h
    cases x with
    | none => simp [seqOpt] at h
    | some a =>
      simp only [seqOpt, Option.map_eq_some'] at h
      obtain ⟨ys', hseq, rfl⟩ := h
      obtain ⟨hlen, hget⟩ := ih ys' hseq
      refine ⟨by simp [hlen], fun i => ?_⟩
      cases i with
      | zero => simp
      | succ j => simpa using hget j

/-- Claim C7: `DeciModel` instantiates exactly `config.num_hidden_layers`
decoder layers, layer `i` being the `DeciLMDecoderLayer` constructed at
`layer_idx = i` (hence from `config.block_configs[i]`), and
`DeciModel.forward`'s loop applies each instantiated layer exactly once, in
increasing index order, threading the `(hidden_states, residual)` pair
through. -/
theorem claim7_layer_instantiation {T P : Type} (ext : Externals T P)
    (config : LlamaConfigModel) (pp : PPGroup) (pfx : PyStr)
    (m : DeciModel T P) (hm : DeciModel.init ext config pp pfx = some m) :
    m.layers.length = config.num_hidden_layers ∧
    (∀ i, i < config.num_hidden_layers → ∃ l,
      m.layers.get? i = some l ∧
      DeciLMDecoderLayer.init ext config i
        (addPfx "layers".data pfx ++ '.' :: (toString i).data) = some l) ∧
    (∀ (positions : P) (it : Option (ITensors T)) (k : ℕ)
        (hr : T × Option T),
      DeciModel.runLayersAux positions it m.layers k hr =
        m.layers.foldl
          (fun acc layer =>
            acc.bind fun hr1 => layer.forward positions hr1.1 it hr1.2)
          (.ok hr)) := by
  rw [DeciModel.init] at hm
  simp only [Option.map_eq_some'] at hm
  obtain ⟨layers, hseq, rfl⟩ := hm
  obtain ⟨hlen, hget⟩ := seqOpt_eq_some _ layers hseq
  have hmlen : (make_layers config.num_hidden_layers
      (fun idx p => DeciLMDecoderLayer.init ext config idx p)
      (addPfx "layers".data pfx)).length = config.num_hidden_layers := by
    simp [make_layers]
  refine ⟨by simp only []; rw [hlen, hmlen], ?_, ?_⟩
  · intro i hi
    have hxs := hget i
    rw [make_layers] at hxs
    rw [List.get?_map, List.get?_range hi] at hxs
    simp only [Option.map_some'] at hxs
    cases hys : layers.get? i with
    | none => rw [hys] at hxs; simp at hxs
    | some l =>
      rw [hys] at hxs
      simp only [Option.map_some', Option.some.injEq] at hxs
      exact ⟨l, rfl, hxs⟩
  · intro positions it k hr
    exact runLayersAux_eq_foldl positions it layers k hr

/-- Witness for C7 on the two-layer test model. -/
theorem claim7_witness :
    testModel.layers.length = testConfig.num_hidden_layers ∧
    DeciLMDecoderLayer.init testExternals testConfig 0
        (addPfx "layers".data [] ++ '.' :: (toString 0).data) =
      testModel.layers.get? 0 ∧
    DeciModel.runLayersAux () none testModel.layers 0 ((3 : ℤ), none) =
      testModel.layers.foldl
        (fun acc layer =>
          acc.bind fun hr1 => layer.forward () hr1.1 none hr1.2)
        (.ok ((3 : ℤ), none)) := by
  have h := claim7_layer_instantiation testExternals testConfig testPPBoth []
    testModel rfl
  refine ⟨h.1, ?_, h.2.2 () none 0 ((3 : ℤ), none)⟩
  obtain ⟨l, h1, h2⟩ := h.2.1 0 (by norm_num [testConfig])
  rw [h1, h2]

/-- Claim C3: `DeciModel.forward` takes its initial hidden states from the
provided embeddings (or the embedding of `input_ids`) with residual `None`
on the first pipeline rank; from the intermediate tensors under keys
`"hidden_states"` and `"residual"` on a non-first rank (asserting they were
supplied); returns an `IntermediateTensors` with exactly those two keys on
a non-last rank; and applies the final RMS normalization, combining hidden
states with the residual, only on the last rank. -/
theorem claim3_forward_pipeline {T P : Type} (m : DeciModel T P)
    (input_ids : Option T) (positions : P) (it : Option (ITensors T))
    (inputs_embeds : Option T) :
    (m.pp.is_first_rank = true → ∀ e, inputs_embeds = some e →
      m.forward input_ids positions it inputs_embeds =
        (DeciModel.runLayersAux positions it m.layers 0 (e, none)).bind
          m.finishStage) ∧
    (m.pp.is_first_rank = true → inputs_embeds = none →
      ∀ emb, m.embed_tokens = some emb →
      m.forward input_ids positions it inputs_embeds =
        (DeciModel.runLayersAux positions it m.layers 0
          (emb input_ids, none)).bind m.finishStage) ∧
    (m.pp.is_first_rank = false → it = none →
      m.forward input_ids positions it inputs_embeds =
        .error "AssertionError".data) ∧
    (m.pp.is_first_rank = false → ∀ d, it = some d → ∀ h r,
      itGet d "hidden_states".data = some (some h) →
      itGet d "residual".data = some r →
      m.forward input_ids positions it inputs_embeds =
        (DeciModel.runLayersAux positions it m.layers 0 (h, r)).bind
          m.finishStage) ∧
    (m.pp.is_last_rank = false → ∀ hr,
      m.finishStage hr =
        .ok (Sum.inr [("hidden_states".data, some hr.1),
          ("residual".data, hr.2)])) ∧
    (m.pp.is_last_rank = true → ∀ nm, m.norm = some nm → ∀ hr,
      m.finishStage hr = .ok (Sum.inl (nm.fwdPair hr.1 hr.2).1)) := by
  refine ⟨?_, ?_, ?_, ?_, ?_, ?_⟩
  · intro hfirst e he
    subst he
    rw [DeciModel.forward.eq_def, hfirst]
    rfl
  · intro hfirst he emb hemb
    subst he
    rw [DeciModel.forward.eq_def, hfirst, hemb]
    rfl
  · intro hfirst hit
    subst hit
    rw [DeciModel.forward.eq_def, hfirst]
    rfl
  · intro hfirst d hd h r hh hr
    subst hd
    rw [DeciModel.forward.eq_def, hfirst]
    simp only [Bool.false_eq_true, if_false, hh, hr]
    rfl
  · intro hlast hr
    rw [DeciModel.finishStage.eq_def, hlast]
    rfl
  · intro hlast nm hnm hr
    rw [DeciModel.finishStage.eq_def, hlast, hnm]
    rfl

/-- Witness for C3 on the concrete test models. -/
theorem claim3_witness :
    (testModel.forward none () none (some 7) =
      (DeciModel.runLayersAux () none testModel.layers 0 ((7 : ℤ), none)).bind
        testModel.finishStage) ∧
    (testModelMid.forward none () none none =
      .error "AssertionError".data) ∧
    (testModelMid.finishStage ((3 : ℤ), none) =
      .ok (Sum.inr [("hidden_states".data, some (3 : ℤ)),
        ("residual".data, none)])) ∧
    (testModel.finishStage ((3 : ℤ), none) =
      .ok (Sum.inl (testNorm.fwdPair 3 none).1)) :=
  ⟨(claim3_forward_pipeline testModel none () none (some 7)).1 rfl 7 rfl,
    (claim3_forward_pipeline testModelMid none () none none).2.2.1 rfl rfl,
    (claim3_forward_pipeline testModelMid none () none none).2.2.2.2.1 rfl
      ((3 : ℤ), none),
    (claim3_forward_pipeline testModel none () none none).2.2.2.2.2 rfl
      testNorm rfl ((3 : ℤ), none)⟩

/-- A prefix of rules none of which matches is skipped by the stacked
loop, leaving the name unchanged. -/
theorem tryStacked_skip_pre {W : Type} (env : LoadEnv W) (w : W) :
    ∀ (pre rules : List (PyStr × PyStr × ShardId)) (name : PyStr),
      (∀ r ∈ pre, strIn r.2.1 name = false) →
      tryStacked env w (pre ++ rules) name = tryStacked env w rules name := by
  intro pre
  induction pre with
  | nil => intro rules name _; rfl
  | cons r pre' ih =>
    intro rules name h
    rw [List.cons_append, tryStacked,
      if_pos (h r (List.mem_cons_self r pre'))]
    exact ih rules name fun r' hr' => h r' (List.mem_cons_of_mem r hr')

/-- A matching rule whose substituted name passes the `.bias` and
pipeline checks and names a parameter dispatches and `break`s. -/
theorem tryStacked_hit {W : Type} (env : LoadEnv W) (w : W)
    (param_name weight_name : PyStr) (shard_id : ShardId)
    (rules : List (PyStr × PyStr × ShardId)) (name : PyStr)
    (hmatch : strIn weight_name name = true)
    (hbias : ¬(strEndsWith ".bias".data
        (strReplace name weight_name param_name) = true ∧
      strReplace name weight_name param_name ∉ env.params))
    (hpp : env.isPPMissing (strReplace name weight_name param_name) = false)
    (hparam : strReplace name weight_name param_name ∈ env.params) :
    tryStacked env w ((param_name, weight_name, shard_id) :: rules) name =
      .ok (strReplace name weight_name param_name,
        some ⟨strReplace name weight_name param_name, w, some shard_id⟩) := by
  rw [tryStacked]
  simp only []
  rw [if_neg (show ¬(strIn weight_name name = false) from by simp [hmatch]),
    if_neg hbias,
    if_neg (show ¬(env.isPPMissing
      (strReplace name weight_name param_name) = true) from by simp [hpp]),
    if_pos hparam]

/-- Counterexample to C4 as stated: the checkpoint entry
`model.layers.0.self_attn.q_proj.bias` contains `".q_proj"`, yet with an
empty parameter dict the loader dispatches it nowhere (the `.bias` check
makes the matching rule `continue` and the `else` clause skip the entry):
the dispatch trace and the returned set are both empty. -/
theorem claim4_counterexample :
    DeciModel.load_weights cexEnv
        [("model.layers.0.self_attn.q_proj.bias".data, (0 : ℤ))] =
      .ok ⟨[], []⟩ := by
  rfl

/-- Claim C4 (amended): for a checkpoint entry that reaches the stacked
mapping loop (not a rotary table, not intercepted as a kv-cache scale,
no `"scale"` in its name), if some rule of `stacked_params_mapping`
matches and the first matching rule's substituted name passes the
`.bias`-missing and pipeline-missing checks and names a parameter, the
tensor is dispatched once to that substituted parameter name with that
rule's shard id, the name is added to the returned set, and no further
rule is tried. -/
theorem claim4_stacked_mapping_dispatch {W : Type} (env : LoadEnv W)
    (acc : LoadAcc W) (name : PyStr) (w : W)
    (pre post : List (PyStr × PyStr × ShardId))
    (param_name weight_name : PyStr) (shard_id : ShardId)
    (hrules : stacked_params_mapping =
      pre ++ (param_name, weight_name, shard_id) :: post)
    (hpre : ∀ r ∈ pre, strIn r.2.1 name = false)
    (hrot1 : strIn "rotary_emb.inv_freq".data name = false)
    (hrot2 : strIn "rotary_emb.cos_cached".data name = false)
    (hrot3 : strIn "rotary_emb.sin_cached".data name = false)
    (hq : (quantScale env name).getD [] = [])
    (hscale : strIn "scale".data name = false)
    (hmatch : strIn weight_name name = true)
    (hbias : ¬(strEndsWith ".bias".data
        (strReplace name weight_name param_name) = true ∧
      strReplace name weight_name param_name ∉ env.params))
    (hpp : env.isPPMissing (strReplace name weight_name param_name) = false)
    (hparam : strReplace name weight_name param_name ∈ env.params) :
    processWeight env acc name w =
      .ok ⟨acc.events ++
        [⟨strReplace name weight_name param_name, w, some shard_id⟩],
        pyAdd acc.loaded (strReplace name weight_name param_name)⟩ := by
  rw [processWeight]
  rw [if_neg (show ¬(strIn "rotary_emb.inv_freq".data name = true) from by
      simp [hrot1]),
    if_neg (show ¬(strIn "rotary_emb.cos_cached".data name = true ∨
        strIn "rotary_emb.sin_cached".data name = true) from by
      simp [hrot2, hrot3])]
  simp only [hq]
  rw [if_neg (show ¬(([] : PyStr) ≠ []) from by simp),
    if_neg (show ¬(strIn "scale".data name = true) from by simp [hscale])]
  rw [stackedDispatch, hrules,
    tryStacked_skip_pre env w pre _ name hpre,
    tryStacked_hit env w param_name weight_name shard_id post name hmatch
      hbias hpp hparam]
  rfl

/-- Witness for the amended C4: `model.layers.0.self_attn.q_proj.weight`
is dispatched to `model.layers.0.self_attn.qkv_proj.weight` with shard id
`"q"` by the first rule. -/
theorem claim4_witness :
    processWeight kvEnv ⟨[], []⟩
        "model.layers.0.self_attn.q_proj.weight".data (0 : ℤ) =
      .ok ⟨[⟨strReplace "model.layers.0.self_attn.q_proj.weight".data
          ".q_proj".data ".qkv_proj".data, (0 : ℤ), some ShardId.q⟩],
        pyAdd [] (strReplace "model.layers.0.self_attn.q_proj.weight".data
          ".q_proj".data ".qkv_proj".data)⟩ :=
  claim4_stacked_mapping_dispatch kvEnv ⟨[], []⟩
    "model.layers.0.self_attn.q_proj.weight".data (0 : ℤ)
    [] (stacked_params_mapping.drop 1) ".qkv_proj".data ".q_proj".data
    ShardId.q (by rfl) (by simp) (by rfl) (by rfl) (by rfl) (by rfl)
    (by rfl) (by rfl) (by decide) (by rfl) (by decide)

/-- Claim C10: a checkpoint entry identified by the quantization config as
a kv-cache scale is loaded into the parameter named by `get_cache_scale`,
using the tensor itself when it is zero-dimensional and its first element
otherwise; the scale name is added to the returned set and no further
remapping is applied to the entry. -/
theorem claim10_kv_scale_loading {W : Type} (env : LoadEnv W)
    (acc : LoadAcc W) (name : PyStr) (w : W) (scale_name : PyStr)
    (hrot1 : strIn "rotary_emb.inv_freq".data name = false)
    (hrot2 : strIn "rotary_emb.cos_cached".data name = false)
    (hrot3 : strIn "rotary_emb.sin_cached".data name = false)
    (hq : quantScale env name = some scale_name)
    (hne : scale_name ≠ [])
    (hp : scale_name ∈ env.params) :
    processWeight env acc name w =
      .ok ⟨acc.events ++ [⟨scale_name,
        (if env.tensorDim w = 0 then w else env.tensorFirst w), none⟩],
        pyAdd acc.loaded scale_name⟩ := by
  rw [processWeight]
  rw [if_neg (show ¬(strIn "rotary_emb.inv_freq".data name = true) from by
      simp [hrot1]),
    if_neg (show ¬(strIn "rotary_emb.cos_cached".data name = true ∨
        strIn "rotary_emb.sin_cached".data name = true) from by
      simp [hrot2, hrot3])]
  simp only [hq, Option.getD_some]
  rw [if_pos hne, if_pos hp]

/-- Witness for C10: the entry `model.layers.0.self_attn.kv_scale` (a
one-dimensional tensor, so its first element `7` is used) is loaded into
`model.layers.0.self_attn.attn.k_scale`. -/
theorem claim10_witness :
    processWeight kvEnv ⟨[], []⟩
        "model.layers.0.self_attn.kv_scale".data (3 : ℤ) =
      .ok ⟨[⟨"model.layers.0.self_attn.attn.k_scale".data,
        (if kvEnv.tensorDim 3 = 0 then (3 : ℤ) else kvEnv.tensorFirst 3),
        none⟩],
        pyAdd [] "model.layers.0.self_attn.attn.k_scale".data⟩ :=
  claim10_kv_scale_loading kvEnv ⟨[], []⟩
    "model.layers.0.self_attn.kv_scale".data (3 : ℤ)
    "model.layers.0.self_attn.attn.k_scale".data
    (by rfl) (by rfl) (by rfl) (by rfl) (by decide) (by decide)

/-- Membership in a Python-set insertion. -/
theorem mem_pyAdd (s n : PyStr) (L : List PyStr) :
    s ∈ pyAdd L n ↔ s ∈ L ∨ s = n := by
  unfold pyAdd
  split_ifs with h
  · constructor
    · exact Or.inl
    · intro h'
      cases h' with
      | inl h1 => exact h1
      | inr h1 => exact h1 ▸ h
  · simp [List.mem_append]

/-- A `break`ing run of the stacked loop dispatches to the name it
returns, with the streamed tensor. -/
theorem tryStacked_param {W : Type} (env : LoadEnv W) (w : W) :
    ∀ (rules : List (PyStr × PyStr × ShardId)) (name nm : PyStr)
      (ev : Dispatch W),
      tryStacked env w rules name = .ok (nm, some ev) →
      ev.param = nm ∧ ev.weight = w := by
  intro rules
  induction rules with
  | nil =>
    intro name nm ev h
    simp only [tryStacked, Except.ok.injEq, Prod.mk.injEq] at h
    exact absurd h.2 (by simp)
  | cons rule rules ih =>
    intro name nm ev h
    obtain ⟨param_name, weight_name, shard_id⟩ := rule
    rw [tryStacked] at h
    simp only [] at h
    split_ifs at h with h1 h2 h3 h4
    · exact ih name nm ev h
    · exact ih _ nm ev h
    · exact ih _ nm ev h
    · simp only [Except.ok.injEq, Prod.mk.injEq, Option.some.injEq] at h
      obtain ⟨h5, h6⟩ := h
      rw [← h6, ← h5]
      exact ⟨rfl, rfl⟩

/-- Lemma: `fallbackDispatch` preserves the loaded-set / dispatch-trace
correspondence. -/
theorem fallbackDispatch_inv {W : Type} (env : LoadEnv W) (acc : LoadAcc W)
    (name : PyStr) (w : W) (acc' : LoadAcc W)
    (hinv : ∀ s, s ∈ acc.loaded ↔ s ∈ acc.events.map Dispatch.param)
    (h : fallbackDispatch env acc name w = .ok acc') :
    ∀ s, s ∈ acc'.loaded ↔ s ∈ acc'.events.map Dispatch.param := by
  rw [fallbackDispatch] at h
  split_ifs at h with h1 h2 h3
  · cases h
    exact hinv
  · cases h
    exact hinv
  · cases h
    intro s
    simp only [mem_pyAdd, hinv s, List.map_append, List.mem_append,
      List.map_cons, List.map_nil, List.mem_singleton]

/-- Lemma: `stackedDispatch` preserves the loaded-set / dispatch-trace
correspondence. -/
theorem stackedDispatch_inv {W : Type} (env : LoadEnv W) (acc : LoadAcc W)
    (name : PyStr) (w : W) (acc' : LoadAcc W)
    (hinv : ∀ s, s ∈ acc.loaded ↔ s ∈ acc.events.map Dispatch.param)
    (h : stackedDispatch env acc name w = .ok acc') :
    ∀ s, s ∈ acc'.loaded ↔ s ∈ acc'.events.map Dispatch.param := by
  rw [stackedDispatch] at h
  cases htry : tryStacked env w stacked_params_mapping name with
  | error e =>
    rw [htry] at h
    exact absurd h (by simp [Except.bind])
  | ok res =>
    rw [htry] at h
    obtain ⟨nm, evOpt⟩ := res
    cases evOpt with
    | some ev =>
      have hev := tryStacked_param env w stacked_params_mapping name nm ev htry
      simp only [Except.bind, Except.ok.injEq] at h
      cases h
      intro s
      simp only [mem_pyAdd, hinv s, List.map_append, List.mem_append,
        List.map_cons, List.map_nil, List.mem_singleton, hev.1]
    | none =>
      simp only [Except.bind] at h
      exact fallbackDispatch_inv env acc nm w acc' hinv h

/-- Lemma: `processWeight` preserves the loaded-set / dispatch-trace
correspondence. -/
theorem processWeight_inv {W : Type} (env : LoadEnv W) (acc : LoadAcc W)
    (name : PyStr) (w : W) (acc' : LoadAcc W)
    (hinv : ∀ s, s ∈ acc.loaded ↔ s ∈ acc.events.map Dispatch.param)
    (h : processWeight env acc name w = .ok acc') :
    ∀ s, s ∈ acc'.loaded ↔ s ∈ acc'.events.map Dispatch.param := by
  unfold processWeight at h
  by_cases h1 : strIn "rotary_emb.inv_freq".data name = true
  · rw [if_pos h1] at h
    cases h
    exact hinv
  · rw [if_neg h1] at h
    by_cases h2 : strIn "rotary_emb.cos_cached".data name = true ∨
        strIn "rotary_emb.sin_cached".data name = true
    · rw [if_pos h2] at h
      cases h
      exact hinv
    · rw [if_neg h2] at h
      by_cases h3 : (quantScale env name).getD [] ≠ []
      · rw [if_pos h3] at h
        by_cases h4 : (quantScale env name).getD [] ∈ env.params
        · rw [if_pos h4] at h
          cases h
          intro s
          simp only [mem_pyAdd, hinv s, List.map_append, List.mem_append,
            List.map_cons, List.map_nil, List.mem_singleton]
        · rw [if_neg h4] at h
          exact absurd h (by simp)
      · rw [if_neg h3] at h
        by_cases h5 : strIn "scale".data name = true
        · rw [if_pos h5] at h
          by_cases h6 : env.remapKvScale name = none
          · rw [if_pos h6] at h
            cases h
            exact hinv
          · rw [if_neg h6] at h
            exact stackedDispatch_inv env acc _ w acc' hinv h
        · rw [if_neg h5] at h
          exact stackedDispatch_inv env acc _ w acc' hinv h

/-- The whole loop preserves the loaded-set / dispatch-trace
correspondence. -/
theorem load_weightsAux_inv {W : Type} (env : LoadEnv W) :
    ∀ (weights : List (PyStr × W)) (acc res : LoadAcc W),
      (∀ s, s ∈ acc.loaded ↔ s ∈ acc.events.map Dispatch.param) →
      load_weightsAux env weights acc = .ok res →
      ∀ s, s ∈ res.loaded ↔ s ∈ res.events.map Dispatch.param := by
  intro weights
  induction weights with
  | nil =>
    intro acc res hinv h
    cases h
    exact hinv
  | cons nw rest ih =>
    intro acc res hinv h
    rw [load_weightsAux] at h
    cases hpw : processWeight env acc nw.1 nw.2 with
    | error e =>
      rw [hpw] at h
      exact absurd h (by simp [Except.bind])
    | ok acc1 =>
      rw [hpw] at h
      simp only [Except.bind] at h
      exact ih acc1 res (processWeight_inv env acc nw.1 nw.2 acc1 hinv hpw) h

/-- Claim C9: `DeciModel.load_weights` silently skips (and leaves out of
the returned set) rotary-embedding auxiliary tensors, scale-bearing names
the kv-scale remap maps to `None`, entries whose (current, possibly
substituted) name ends in `.bias` with no such parameter, and parameters
of other pipeline stages reaching the fallback; and the returned set
contains exactly the names that received a `weight_loader` dispatch. -/
theorem claim9_skips_and_loaded_set {W : Type} (env : LoadEnv W)
    (acc : LoadAcc W) (name nm1 : PyStr) (w : W) :
    (strIn "rotary_emb.inv_freq".data name = true →
      processWeight env acc name w = .ok acc) ∧
    (strIn "rotary_emb.inv_freq".data name = false →
      (strIn "rotary_emb.cos_cached".data name = true ∨
        strIn "rotary_emb.sin_cached".data name = true) →
      processWeight env acc name w = .ok acc) ∧
    (strIn "rotary_emb.inv_freq".data name = false →
      strIn "rotary_emb.cos_cached".data name = false →
      strIn "rotary_emb.sin_cached".data name = false →
      (quantScale env name).getD [] = [] →
      strIn "scale".data name = true →
      env.remapKvScale name = none →
      processWeight env acc name w = .ok acc) ∧
    (tryStacked env w stacked_params_mapping name = .ok (nm1, none) →
      strEndsWith ".bias".data nm1 = true → nm1 ∉ env.params →
      stackedDispatch env acc name w = .ok acc) ∧
    (tryStacked env w stacked_params_mapping name = .ok (nm1, none) →
      ¬(strEndsWith ".bias".data nm1 = true ∧ nm1 ∉ env.params) →
      env.isPPMissing nm1 = true →
      stackedDispatch env acc name w = .ok acc) ∧
    (∀ (weights : List (PyStr × W)) (res : LoadAcc W),
      DeciModel.load_weights env weights = .ok res →
      ∀ s, s ∈ res.loaded ↔ s ∈ res.events.map Dispatch.param) := by
  refine ⟨?_, ?_, ?_, ?_, ?_, ?_⟩
  · intro h1
    rw [processWeight, if_pos h1]
  · intro h1 h2
    rw [processWeight, if_neg (by simp [h1]), if_pos h2]
  · intro h1 h2 h3 hq hscale hremap
    rw [processWeight, if_neg (by simp [h1]), if_neg (by simp [h2, h3])]
    simp only [hq]
    rw [if_neg (show ¬(([] : PyStr) ≠ []) from by simp), if_pos hscale,
      if_pos hremap]
  · intro htry hbias hmem
    rw [stackedDispatch, htry]
    simp only [Except.bind]
    rw [fallbackDispatch, if_pos ⟨hbias, hmem⟩]
  · intro htry hbias hpp
    rw [stackedDispatch, htry]
    simp only [Except.bind]
    rw [fallbackDispatch, if_neg hbias, if_pos hpp]
  · intro weights res h
    exact load_weightsAux_inv env weights ⟨[], []⟩ res (by simp) h

/-- Witness for C9: a rotary auxiliary entry is skipped; a scale entry the
remap rejects is skipped; and on an empty run the returned set matches the
(empty) dispatch trace. -/
theorem claim9_witness :
    processWeight cexEnv ⟨[], []⟩
        "model.layers.0.self_attn.rotary_emb.inv_freq".data (0 : ℤ) =
      .ok ⟨[], []⟩ ∧
    processWeight cexEnv ⟨[], []⟩
        "model.layers.0.self_attn.attn.k_scale".data (0 : ℤ) =
      .ok ⟨[], []⟩ ∧
    (("x".data : PyStr) ∈ (⟨[], []⟩ : LoadAcc ℤ).loaded ↔
      ("x".data : PyStr) ∈
        (⟨[], []⟩ : LoadAcc ℤ).events.map Dispatch.param) :=
  ⟨(claim9_skips_and_loaded_set cexEnv ⟨[], []⟩
      "model.layers.0.self_attn.rotary_emb.inv_freq".data [] (0 : ℤ)).1
      (by rfl),
    (claim9_skips_and_loaded_set cexEnv ⟨[], []⟩
      "model.layers.0.self_attn.attn.k_scale".data [] (0 : ℤ)).2.2.1
      (by rfl) (by rfl) (by rfl) (by rfl) (by rfl) (by rfl),
    (claim9_skips_and_loaded_set cexEnv ⟨[], []⟩ [] []
      (0 : ℤ)).2.2.2.2.2 [] ⟨[], []⟩ (by rfl) "x".data⟩

/-- Splitting a dot-free string on dots yields the string itself. -/
theorem splitDots_no_dot :
    ∀ p : PyStr, '.' ∉ p → splitDots p = [p] := by
  intro p
  induction p with
  | nil => intro _; rfl
  | cons c rest ih =>
    intro h
    have hc : ¬(c = '.') := fun hc => h (hc ▸ List.mem_cons_self c rest)
    have hrest : '.' ∉ rest := fun hr => h (List.mem_cons_of_mem c hr)
    rw [splitDots, if_neg hc, ih hrest]

/-- Splitting a string whose first dot terminates a dot-free piece. -/
theorem splitDots_append :
    ∀ (p s : PyStr), '.' ∉ p →
      splitDots (p ++ '.' :: s) = p :: splitDots s := by
  intro p
  induction p with
  | nil =>
    intro s _
    rw [List.nil_append, splitDots, if_pos rfl]
  | cons c rest ih =>
    intro s h
    have hc : ¬(c = '.') := fun hc => h (hc ▸ List.mem_cons_self c rest)
    have hrest : '.' ∉ rest := fun hr => h (List.mem_cons_of_mem c hr)
    rw [List.cons_append, splitDots, if_neg hc, ih s hrest]

/-- Lemma: `splitDots` inverts `joinDots` on non-empty lists of dot-free
pieces. -/
theorem splitDots_joinDots :
    ∀ toks : List PyStr, toks ≠ [] → (∀ t ∈ toks, '.' ∉ t) →
      splitDots (joinDots toks) = toks := by
  intro toks
  induction toks with
  | nil => intro h _; exact absurd rfl h
  | cons t ts ih =>
    intro _ h
    cases ts with
    | nil =>
      show splitDots (joinDots [t]) = [t]
      exact splitDots_no_dot t (h t (List.mem_cons_self t []))
    | cons t2 ts' =>
      show splitDots (t ++ '.' :: joinDots (t2 :: ts')) = t :: t2 :: ts'
      rw [splitDots_append t _ (h t (List.mem_cons_self t _)),
        ih (by simp) fun t' ht' => h t' (List.mem_cons_of_mem t ht')]

/-- Claim C6: the causal-LM loader rewrites Mistral-style checkpoint keys
through `mistral_mapping` before dispatching each tensor: the loader is
`DeciModel.load_weights` after the per-name remap, the remap substitutes
every dot-separated component through the table, and each table alias
rewrites as specified (e.g. `wq` to `q_proj`, `tok_embeddings` to
`model.embed_tokens`). -/
theorem claim6_mistral_key_aliasing :
    (∀ (W : Type) (env : LoadEnv W) (weights : List (PyStr × W)),
      DeciLMForCausalLM.load_weights env weights =
        DeciModel.load_weights env
          (weights.map fun nw => (maybe_remap_mistral nw.1, nw.2))) ∧
    (∀ toks : List PyStr, toks ≠ [] → (∀ t ∈ toks, '.' ∉ t) →
      maybe_remap_mistral (joinDots toks) =
        joinDots (toks.map mistralSubst)) ∧
    maybe_remap_mistral "layers.0.attention.wq.weight".data =
      "model.layers.0.self_attn.q_proj.weight".data ∧
    maybe_remap_mistral "layers.1.attention.wk.weight".data =
      "model.layers.1.self_attn.k_proj.weight".data ∧
    maybe_remap_mistral "layers.1.attention.wv.weight".data =
      "model.layers.1.self_attn.v_proj.weight".data ∧
    maybe_remap_mistral "layers.1.attention.wo.weight".data =
      "model.layers.1.self_attn.o_proj.weight".data ∧
    maybe_remap_mistral "layers.2.attention_norm.weight".data =
      "model.layers.2.input_layernorm.weight".data ∧
    maybe_remap_mistral "layers.2.feed_forward.w1.weight".data =
      "model.layers.2.mlp.gate_proj.weight".data ∧
    maybe_remap_mistral "layers.2.feed_forward.w2.weight".data =
      "model.layers.2.mlp.down_proj.weight".data ∧
    maybe_remap_mistral "layers.2.feed_forward.w3.weight".data =
      "model.layers.2.mlp.up_proj.weight".data ∧
    maybe_remap_mistral "layers.2.ffn_norm.weight".data =
      "model.layers.2.post_attention_layernorm.weight".data ∧
    maybe_remap_mistral "tok_embeddings.weight".data =
      "model.embed_tokens.weight".data ∧
    maybe_remap_mistral "output.weight".data =
      "lm_head.weight".data ∧
    maybe_remap_mistral "norm.weight".data =
      "model.norm.weight".data := by
  refine ⟨fun _ _ _ => rfl, ?_, by rfl, by rfl, by rfl, by rfl, by rfl,
    by rfl, by rfl, by rfl, by rfl, by rfl, by rfl, by rfl⟩
  intro toks hne h
  rw [maybe_remap_mistral, splitDots_joinDots toks hne h]

/-- Witness for C6's quantified clause at the single token `wq`. -/
theorem claim6_witness :
    maybe_remap_mistral (joinDots ["wq".data]) =
      joinDots (["wq".data].map mistralSubst) :=
  claim6_mistral_key_aliasing.2.1 ["wq".data] (by simp) (by decide)

end NemotronNas
